import Mathlib

/-
Verification of the protoc-gen-go-svcintf code generator
(src/unnamed/part_000 of the repository).

The generator walks a parsed protobuf descriptor tree (services, methods,
messages, fields, comments, options) and emits Go source text: client and
server interfaces, per-service dispatch tables (ServiceDefn / MethodDefn
literals) and a help-text table.  This file gives a shallow embedding of
that generator: comment text is modelled as List Char, generated text as
List Char, and each emission function of the Go source is translated into
a Lean definition that follows the source's control flow line by line.
Source line numbers refer to src/unnamed/part_000.
-/

/- ===================== Comment normalizer ===================== -/

/-- Whitespace test used by Go strings.TrimSpace (unicode.IsSpace):
space, tab, newline, carriage return, vertical tab (11), form feed (12),
next line (133, U+0085) and no-break space (160, U+00A0). -/
def goIsSpace (c : Char) : Bool :=
  c = ' ' || c = '\t' || c = '\n' || c = '\r' ||
  c.toNat = 11 || c.toNat = 12 || c.toNat = 133 || c.toNat = 160

/-- Go strings.TrimSpace: drop leading and trailing whitespace
(commentsToStr, source line 374). -/
def trimSpace (s : List Char) : List Char :=
  ((s.dropWhile goIsSpace).reverse.dropWhile goIsSpace).reverse

/-- Go strings.TrimSuffix(string(comments), "\n") at source line 362:
remove one trailing newline if present. -/
def trimSuffixNewline (s : List Char) : List Char :=
  if s.getLast? = some '\n' then s.dropLast else s

/-- The effect of replaceAllStringSubmatchFunc (source lines 342-357) with
the regular expression ([^\n])(\n) and the replacement g[1] + " "
(source line 365): scanning left to right, each non-overlapping occurrence
of a non-newline character followed by a newline is replaced by that
character and a space; Go regexp finds leftmost matches and resumes after
each match, which is exactly this recursion. -/
def collapseSoft : List Char → List Char
  | [] => []
  | [c] => [c]
  | c :: d :: rest =>
    if c = '\n' then c :: collapseSoft (d :: rest)
    else if d = '\n' then c :: ' ' :: collapseSoft rest
    else c :: collapseSoft (d :: rest)

/-- Go strings.Split(c, "\n") (source line 367): split at every newline;
the empty string yields one empty piece, never an empty list. -/
def splitOnNL : List Char → List (List Char)
  | [] => [[]]
  | c :: rest =>
    if c = '\n' then [] :: splitOnNL rest
    else
      match splitOnNL rest with
      | [] => [[c]]
      | g :: gs => (c :: g) :: gs

/-- The lines that commentsToStr quotes: collapse soft wraps, split at the
remaining (paragraph-break) newlines, trim each line
(source lines 362-374). -/
def normLines (s : List Char) : List (List Char) :=
  (splitOnNL (collapseSoft (trimSuffixNewline s))).map trimSpace

/-- Join pieces with a single newline between consecutive pieces; this is
the string denoted by the escaped literal that commentsToStr emits
(each non-final quoted line is followed by the escape \n). -/
def joinNL : List (List Char) → List Char
  | [] => []
  | [l] => l
  | l :: l2 :: ls => l ++ '\n' :: joinNL (l2 :: ls)

/-- The comment-normalization text transformation performed by
commentsToStr: collapse soft line wraps into a single space, trim every
resulting line, keep paragraph breaks as embedded newlines.  This is the
string denoted by the literal expression commentsToStr builds. -/
def normComment (s : List Char) : List Char :=
  joinNL (normLines s)

/-- commentsToStr (source lines 359-384): builds the escaped Go
string-literal expression for a comment.  Every line is quoted after
trimming; every non-final line is closed with the three characters
backslash n quote, then a plus sign, then a newline; the dead l = 0
branch of the source (strings.Split never returns an empty slice) is kept
for faithfulness. -/
def commentsToStr (comments : List Char) : List Char :=
  let c := collapseSoft (trimSuffixNewline comments)
  let lines := splitOnNL c
  let l := lines.length
  (if l = 0 then "\"\"".toList else [])
    ++ List.flatten (lines.enum.map (fun p =>
        "\"".toList ++ trimSpace p.2
          ++ (if p.1 < l - 1 then "\\n\"".toList ++ "+".toList ++ "\n".toList
              else "\"".toList)))

/- ============ Helper lemmas about the normalizer ============ -/

theorem mem_of_getLast?_eq : ∀ (l : List Char), l.getLast? = some '\n' → ('\n' : Char) ∈ l
  | [c], h => by
      rw [List.getLast?_singleton] at h
      rw [← Option.some_inj.mp h]
      exact List.mem_cons_self c []
  | c :: d :: t, h => by
      rw [List.getLast?_cons_cons] at h
      exact List.mem_cons_of_mem _ (mem_of_getLast?_eq (d :: t) h)

theorem trimSuffixNewline_of_not_mem (s : List Char) (h : ('\n' : Char) ∉ s) :
    trimSuffixNewline s = s := by
  unfold trimSuffixNewline
  rw [if_neg]
  intro he
  exact h (mem_of_getLast?_eq s he)

theorem collapseSoft_of_not_mem (s : List Char) (h : ('\n' : Char) ∉ s) :
    collapseSoft s = s := by
  induction s using collapseSoft.induct with
  | case1 => rfl
  | case2 c => rfl
  | case3 d rest ih => exact absurd (List.mem_cons_self _ _) h
  | case4 c rest hc ih =>
      exact absurd (List.mem_cons_of_mem _ (List.mem_cons_self _ _)) h
  | case5 c d rest hc hd ih =>
      have h' : ('\n' : Char) ∉ d :: rest := fun m => h (List.mem_cons_of_mem _ m)
      simp only [collapseSoft, if_neg hc, if_neg hd, ih h']

theorem splitOnNL_of_not_mem (s : List Char) (h : ('\n' : Char) ∉ s) :
    splitOnNL s = [s] := by
  induction s with
  | nil => rfl
  | cons c rest ih =>
      have hc : c ≠ '\n' := fun e => h (e ▸ List.mem_cons_self c rest)
      have h' : ('\n' : Char) ∉ rest := fun m => h (List.mem_cons_of_mem _ m)
      simp only [splitOnNL, if_neg hc, ih h']

theorem splitOnNL_ne_nil (s : List Char) : splitOnNL s ≠ [] := by
  cases s with
  | nil => simp [splitOnNL]
  | cons c rest =>
      simp only [splitOnNL]
      split
      · simp
      · split <;> simp

theorem dropWhile_head_not (p : Char → Bool) :
    ∀ (l : List Char) (a : Char) (t : List Char), l.dropWhile p = a :: t → p a = false := by
  intro l
  induction l with
  | nil => intro a t h; exact absurd h (by simp)
  | cons c l ih =>
      intro a t h
      rw [List.dropWhile_cons] at h
      by_cases hc : p c = true
      · rw [if_pos hc] at h
        exact ih a t h
      · rw [if_neg hc] at h
        have : c = a := (List.cons.injEq _ _ _ _ ▸ h).1
        rw [← this]
        exact Bool.not_eq_true _ ▸ hc

theorem dropWhile_dropWhile (p : Char → Bool) (l : List Char) :
    (l.dropWhile p).dropWhile p = l.dropWhile p := by
  cases h : l.dropWhile p with
  | nil => simp
  | cons a t => simp [List.dropWhile_cons, dropWhile_head_not p l a t h]

theorem trimSpace_trimSpace (s : List Char) : trimSpace (trimSpace s) = trimSpace s := by
  obtain ⟨pre, hpre⟩ := List.dropWhile_suffix (l := (s.dropWhile goIsSpace).reverse) goIsSpace
  have hB := dropWhile_dropWhile goIsSpace (s.dropWhile goIsSpace).reverse
  have hA : (((s.dropWhile goIsSpace).reverse.dropWhile goIsSpace).reverse).dropWhile goIsSpace
      = ((s.dropWhile goIsSpace).reverse.dropWhile goIsSpace).reverse := by
    cases hvr : ((s.dropWhile goIsSpace).reverse.dropWhile goIsSpace).reverse with
    | nil => simp
    | cons a t =>
        have h1 := congrArg List.reverse hpre
        rw [List.reverse_append, hvr, List.reverse_reverse, List.cons_append] at h1
        have ha := dropWhile_head_not goIsSpace s a (t ++ pre.reverse) h1.symm
        simp [List.dropWhile_cons, ha]
  unfold trimSpace
  rw [hA, List.reverse_reverse, hB]

theorem normComment_eq_trimSpace (t : List Char) (h : ('\n' : Char) ∉ t) :
    normComment t = trimSpace t := by
  unfold normComment normLines
  rw [trimSuffixNewline_of_not_mem t h, collapseSoft_of_not_mem t h,
      splitOnNL_of_not_mem t h]
  rfl

/- ===================== Claims C3, C4, C5 ===================== -/

/-- C3, counterexample: comment normalization is NOT idempotent.  The
input "a\n\nb" normalizes to "a\nb" (the paragraph break is preserved as
an embedded newline), but normalizing that output again collapses the
surviving newline as a soft wrap, yielding "a b". -/
theorem normComment_not_idempotent :
    normComment (normComment "a\n\nb".toList) ≠ normComment "a\n\nb".toList := by
  decide

/-- C3, amended: comment normalization is idempotent on every input whose
normalized form contains no newline, i.e. whenever no paragraph break
survives normalization (in particular on every single-line input); it is
not idempotent in general, because a preserved paragraph break is
collapsed as a soft wrap by a second pass. -/
theorem normComment_idempotent_no_newline (s : List Char)
    (h : ('\n' : Char) ∉ normComment s) :
    normComment (normComment s) = normComment s := by
  rw [normComment_eq_trimSpace _ h]
  cases hL : splitOnNL (collapseSoft (trimSuffixNewline s)) with
  | nil => exact absurd hL (splitOnNL_ne_nil _)
  | cons r rl =>
      cases rl with
      | nil =>
          have hs : normComment s = trimSpace r := by
            unfold normComment normLines
            rw [hL]
            rfl
          rw [hs, trimSpace_trimSpace]
      | cons r2 rl2 =>
          exfalso
          apply h
          have hs : normComment s
              = trimSpace r ++ '\n' :: joinNL (trimSpace r2 :: rl2.map trimSpace) := by
            unfold normComment normLines
            rw [hL]
            rfl
          rw [hs]
          exact List.mem_append_right _ (List.mem_cons_self _ _)

/-- C3, witness for the amended claim at the concrete input "a\nb", whose
normalized form "a b" contains no newline. -/
theorem normComment_idempotent_no_newline_witness :
    (('\n' : Char) ∉ normComment "a\nb".toList)
      ∧ normComment (normComment "a\nb".toList) = normComment "a\nb".toList :=
  ⟨by decide, normComment_idempotent_no_newline ("a\nb".toList) (by decide)⟩

/-- C4: normalization is whitespace-invariant for soft wraps: "a\nb" and
"a b" produce the same literal and the same normalized text ("a b"),
while "a\n\nb" keeps the paragraph break: its normalized text is "a\nb"
and the emitted literal is the two quoted lines joined by the escape
backslash-n and a plus sign. -/
theorem normComment_soft_wrap_invariant :
    commentsToStr "a\nb".toList = commentsToStr "a b".toList
      ∧ normComment "a\nb".toList = normComment "a b".toList
      ∧ normComment "a\n\nb".toList = "a\nb".toList
      ∧ commentsToStr "a\n\nb".toList = "\"a\\n\"+\n\"b\"".toList := by
  refine ⟨by decide, by decide, by decide, by decide⟩

/-- C5: for the empty input, commentsToStr returns the two-character
empty-string literal (an opening and a closing double quote), never a
zero-length expression. -/
theorem commentsToStr_empty_literal :
    commentsToStr [] = "\"\"".toList ∧ commentsToStr [] ≠ [] := by
  refine ⟨by decide, by decide⟩

/- ===================== Schema data model ===================== -/

/-- A method of a service as the generator reads it from the descriptor
tree: Go name, parent service Go name (method.Parent.GoName), the
qualified Go identifiers of the input and output message types (the
qualification of imports performed by g.QualifiedGoIdent is an external
collaborator, so the pre-qualified identifier strings are stored
directly), the two independent streaming flags
(method.Desc.IsStreamingClient / IsStreamingServer), the deprecated
option and the leading comments. -/
structure Method where
  goName : String
  parentGoName : String
  inputGoIdent : String
  outputGoIdent : String
  isStreamingClient : Bool
  isStreamingServer : Bool
  deprecated : Bool
  commentsLeading : List Char
deriving DecidableEq

/-- A service: Go name, deprecated option, ordered method list. -/
structure Service where
  goName : String
  deprecated : Bool
  methods : List Method
deriving DecidableEq

/-- A field of a message: proto field name (fld.Desc.Name()) and leading
comments.  (Named MsgField because Lean already reserves Field.) -/
structure MsgField where
  name : String
  commentsLeading : List Char
deriving DecidableEq

/-- A message: Go name (msg.GoIdent.GoName), leading comments, ordered
field list. -/
structure Message where
  goName : String
  commentsLeading : List Char
  fields : List MsgField
deriving DecidableEq

/- ===================== Signature synthesizer ===================== -/

/-- clientSignature (source lines 181-197): the client-facing method
signature.  The identifier produced by
g.QualifiedGoIdent(contextPackage.Ident("Context")) is the string
"context.Context". -/
def clientSignature (m : Method) : List Char :=
  let s := m.goName.toList ++ "(ctx ".toList ++ "context.Context".toList
  let s := if !m.isStreamingClient then s ++ ", in *".toList ++ m.inputGoIdent.toList else s
  let s := if !m.isStreamingServer then s ++ ", out *".toList ++ m.outputGoIdent.toList else s
  let s := s ++ ") (".toList
  let s := if m.isStreamingClient || m.isStreamingServer then
      s ++ (m.parentGoName.toList ++ "_".toList ++ m.goName.toList ++ "Client".toList)
        ++ ",".toList
    else s
  s ++ "error)".toList

/-- Go strings.Join: concatenate the pieces with the separator between
consecutive pieces (used by serverSignature, source line 254). -/
def goJoin (sep : List Char) : List (List Char) → List Char
  | [] => []
  | [x] => x
  | x :: y :: rest => x ++ sep ++ goJoin sep (y :: rest)

/-- serverSignature (source lines 242-255): the server-facing method
signature, built from the reqArgs list exactly as the source appends to
it. -/
def serverSignature (m : Method) : List Char :=
  let reqArgs : List (List Char) :=
    ["context.Context".toList]
      ++ (if !m.isStreamingClient then ["*".toList ++ m.inputGoIdent.toList] else [])
      ++ (if m.isStreamingClient || m.isStreamingServer then
            [m.parentGoName.toList ++ "_".toList ++ m.goName.toList ++ "Server".toList]
          else ["*".toList ++ m.outputGoIdent.toList])
  m.goName.toList ++ "(".toList ++ goJoin ", ".toList reqArgs ++ ") ".toList ++ "error".toList

/- ===================== Dispatch table builder ===================== -/

/-- Which pair of handler fields a MethodDefn literal carries: the unary
pair ServerHandler / ClientHandler or the streaming pair
ServerStreamHandler / ClientStreamHandler. -/
inductive HandlerKind where
  | unary
  | stream
deriving DecidableEq

/-- The structured content of the MethodDefn literal genServiceDef emits
per method (source lines 305-335): map key (line 306), IsStreaming field
(line 308, meth.Desc.IsStreamingServer()), the message types the
NewRequest / NewResponse constructors build (lines 309-310), the Help
literal (line 313), and which handler pair is emitted (branch at line
314: the unary pair iff not IsStreamingServer). -/
structure MethodDefnEntry where
  key : String
  isStreaming : Bool
  newRequest : String
  newResponse : String
  help : List Char
  handlers : HandlerKind
deriving DecidableEq

/-- One MethodDefn entry, from genServiceDef's per-method loop body
(source lines 305-335). -/
def genServiceDefEntry (m : Method) : MethodDefnEntry :=
  { key := m.goName
    isStreaming := m.isStreamingServer
    newRequest := m.inputGoIdent
    newResponse := m.outputGoIdent
    help := commentsToStr m.commentsLeading
    handlers := if !m.isStreamingServer then HandlerKind.unary else HandlerKind.stream }

/-- The Methods map of the ServiceDefn literal genServiceDef emits
(source lines 300-340), in declaration order. -/
def genServiceDef (svc : Service) : List MethodDefnEntry :=
  svc.methods.map genServiceDefEntry

/-- Which dispatch-table field the generated client method implementation
calls (genClientMethod, source lines 199-240): ClientHandler when the
method is unary, ClientStreamHandler when either streaming flag is set
(isStreaming at line 202). -/
inductive ClientCall where
  | handler
  | streamHandler
deriving DecidableEq

/-- The dispatch call in the body genClientMethod emits
(source lines 228-237). -/
def genClientMethodCall (m : Method) : ClientCall :=
  if !(m.isStreamingServer || m.isStreamingClient) then ClientCall.handler
  else ClientCall.streamHandler

/- ============ Concrete schema values used by the claims ============ -/

/-- The unary SayHello(HelloRequest) -> HelloResponse method of the
Greeter scenario in the specification. -/
def sayHelloMethod : Method :=
  { goName := "SayHello", parentGoName := "Greeter", inputGoIdent := "HelloRequest",
    outputGoIdent := "HelloResponse", isStreamingClient := false, isStreamingServer := false,
    deprecated := false, commentsLeading := [] }

/-- The Greeter service with the single unary method SayHello. -/
def greeterService : Service :=
  { goName := "Greeter", deprecated := false, methods := [sayHelloMethod] }

/-- A client-streaming-only method (IsStreamingClient set,
IsStreamingServer clear), the fourth flag combination. -/
def clientStreamOnlyMethod : Method :=
  { goName := "Publish", parentGoName := "Greeter", inputGoIdent := "HelloRequest",
    outputGoIdent := "HelloResponse", isStreamingClient := true, isStreamingServer := false,
    deprecated := false, commentsLeading := [] }

/- ============ Method-name extraction from signatures ============ -/

/-- The method name carried by an emitted interface signature line: the
characters before the first opening parenthesis (both clientSignature and
serverSignature start with method.GoName followed directly by the
parenthesized parameter list). -/
def methodNameOfSig (sig : List Char) : List Char :=
  sig.takeWhile (fun c => c != '(')

theorem takeWhile_until_paren : ∀ (n rest : List Char), ('(' : Char) ∉ n →
    (n ++ '(' :: rest).takeWhile (fun c => c != '(') = n
  | [], rest, _ => by simp [List.takeWhile_cons]
  | c :: n, rest, h => by
      have hc : c ≠ '(' := fun e => h (e ▸ List.mem_cons_self c n)
      have h' : ('(' : Char) ∉ n := fun m => h (List.mem_cons_of_mem _ m)
      simp [List.takeWhile_cons, hc, takeWhile_until_paren n rest h']

theorem clientSignature_name (m : Method) (h : ('(' : Char) ∉ m.goName.toList) :
    methodNameOfSig (clientSignature m) = m.goName.toList := by
  have e1 : "(ctx ".toList = '(' :: "ctx ".toList := rfl
  unfold methodNameOfSig clientSignature
  cases hc : m.isStreamingClient <;> cases hs : m.isStreamingServer <;>
    simp only [hc, hs, Bool.not_false, Bool.not_true, Bool.false_or, Bool.true_or,
      Bool.or_false, Bool.or_true, Bool.false_eq_true, Bool.true_eq_false,
      eq_self_iff_true, if_true, if_false, e1, List.append_assoc,
      List.cons_append] <;>
    exact takeWhile_until_paren _ _ h

theorem serverSignature_name (m : Method) (h : ('(' : Char) ∉ m.goName.toList) :
    methodNameOfSig (serverSignature m) = m.goName.toList := by
  have e2 : ("(".toList : List Char) = ['('] := rfl
  unfold methodNameOfSig serverSignature
  simp only [e2, List.append_assoc, List.singleton_append]
  exact takeWhile_until_paren _ _ h

/- ============ Interface signature lists (per service) ============ -/

/-- The signature lines emitted inside the client interface declaration,
in declaration order (genService, source lines 119-125). -/
def clientIfaceSignatures (svc : Service) : List (List Char) :=
  svc.methods.map clientSignature

/-- The signature lines emitted inside the server interface declaration,
in declaration order (genService, source lines 163-169). -/
def serverIfaceSignatures (svc : Service) : List (List Char) :=
  svc.methods.map serverSignature

/- ===================== Claims C1, C2, C6 ===================== -/

/-- C1, counterexample: for a client-streaming-only method (client flag
set, server flag clear) the generated client interface signature and the
generated client implementation take the streaming shape (the impl calls
ClientStreamHandler), while the dispatch-table entry emitted by
genServiceDef carries the unary ServerHandler / ClientHandler pair — a
hybrid.  So the shape of the signatures does not agree with the shape of
the dispatch entry on all four flag combinations. -/
theorem clientStreamOnly_shape_mismatch :
    genClientMethodCall clientStreamOnlyMethod = ClientCall.streamHandler
      ∧ (genServiceDefEntry clientStreamOnlyMethod).handlers = HandlerKind.unary
      ∧ clientSignature clientStreamOnlyMethod
          = "Publish(ctx context.Context, out *HelloResponse) (Greeter_PublishClient,error)".toList
      ∧ ¬ ((genClientMethodCall clientStreamOnlyMethod = ClientCall.streamHandler)
            ↔ (genServiceDefEntry clientStreamOnlyMethod).handlers = HandlerKind.stream) := by
  refine ⟨rfl, rfl, by decide, fun hiff => absurd (hiff.mp rfl) (by decide)⟩

/-- C1, amended: for every method in which the client-streaming flag
implies the server-streaming flag (unary, server-streaming and
bidirectional methods — three of the four combinations), exactly one of
the unary or streaming shapes is chosen, consistently: the dispatch entry
carries the streaming handler pair iff either flag is set, iff the client
implementation calls ClientStreamHandler, iff the client signature ends
with the auxiliary stream-client return type, iff the server signature's
last parameter is the auxiliary stream-server type rather than the
pointer to the output message.  (For client-streaming-only methods the
shapes diverge, see the counterexample.) -/
theorem signature_dispatch_shape_agree (m : Method)
    (h : m.isStreamingClient = true → m.isStreamingServer = true) :
    ((genServiceDefEntry m).handlers = HandlerKind.stream
        ↔ (m.isStreamingClient || m.isStreamingServer) = true)
      ∧ (genClientMethodCall m = ClientCall.streamHandler
        ↔ (m.isStreamingClient || m.isStreamingServer) = true)
      ∧ (∃ pre, clientSignature m
          = pre ++ (if m.isStreamingClient || m.isStreamingServer then
              (m.parentGoName.toList ++ "_".toList ++ m.goName.toList ++ "Client".toList)
                ++ ",".toList ++ "error)".toList
            else "error)".toList))
      ∧ (∃ pre, serverSignature m
          = pre ++ (if m.isStreamingClient || m.isStreamingServer then
              (m.parentGoName.toList ++ "_".toList ++ m.goName.toList ++ "Server".toList)
                ++ ") ".toList ++ "error".toList
            else "*".toList ++ m.outputGoIdent.toList ++ ") ".toList ++ "error".toList)) := by
  cases hc : m.isStreamingClient <;> cases hs : m.isStreamingServer
  · refine ⟨by simp [genServiceDefEntry, hs], by simp [genClientMethodCall, hc, hs], ?_, ?_⟩
    · refine ⟨m.goName.toList ++ "(ctx ".toList ++ "context.Context".toList ++ ", in *".toList
        ++ m.inputGoIdent.toList ++ ", out *".toList ++ m.outputGoIdent.toList
        ++ ") (".toList, ?_⟩
      simp [clientSignature, hc, hs, List.append_assoc]
    · refine ⟨m.goName.toList ++ "(".toList ++ "context.Context".toList ++ ", ".toList
        ++ "*".toList ++ m.inputGoIdent.toList ++ ", ".toList, ?_⟩
      simp [serverSignature, goJoin, hc, hs, List.append_assoc]
  · refine ⟨by simp [genServiceDefEntry, hs], by simp [genClientMethodCall, hc, hs], ?_, ?_⟩
    · refine ⟨m.goName.toList ++ "(ctx ".toList ++ "context.Context".toList ++ ", in *".toList
        ++ m.inputGoIdent.toList ++ ") (".toList, ?_⟩
      simp [clientSignature, hc, hs, List.append_assoc]
    · refine ⟨m.goName.toList ++ "(".toList ++ "context.Context".toList ++ ", ".toList
        ++ "*".toList ++ m.inputGoIdent.toList ++ ", ".toList, ?_⟩
      simp [serverSignature, goJoin, hc, hs, List.append_assoc]
  · exact absurd (h hc) (by simp [hs])
  · refine ⟨by simp [genServiceDefEntry, hs], by simp [genClientMethodCall, hc, hs], ?_, ?_⟩
    · refine ⟨m.goName.toList ++ "(ctx ".toList ++ "context.Context".toList ++ ") (".toList, ?_⟩
      simp [clientSignature, hc, hs, List.append_assoc]
    · refine ⟨m.goName.toList ++ "(".toList ++ "context.Context".toList ++ ", ".toList, ?_⟩
      simp [serverSignature, goJoin, hc, hs, List.append_assoc]

/-- C1, witness for the amended claim at the concrete unary method
SayHello. -/
theorem signature_dispatch_shape_agree_witness :
    (sayHelloMethod.isStreamingClient = true → sayHelloMethod.isStreamingServer = true)
      ∧ (((genServiceDefEntry sayHelloMethod).handlers = HandlerKind.stream
          ↔ (sayHelloMethod.isStreamingClient || sayHelloMethod.isStreamingServer) = true)
        ∧ (genClientMethodCall sayHelloMethod = ClientCall.streamHandler
          ↔ (sayHelloMethod.isStreamingClient || sayHelloMethod.isStreamingServer) = true)
        ∧ (∃ pre, clientSignature sayHelloMethod
            = pre ++ (if sayHelloMethod.isStreamingClient || sayHelloMethod.isStreamingServer then
                (sayHelloMethod.parentGoName.toList ++ "_".toList
                  ++ sayHelloMethod.goName.toList ++ "Client".toList)
                  ++ ",".toList ++ "error)".toList
              else "error)".toList))
        ∧ (∃ pre, serverSignature sayHelloMethod
            = pre ++ (if sayHelloMethod.isStreamingClient || sayHelloMethod.isStreamingServer then
                (sayHelloMethod.parentGoName.toList ++ "_".toList
                  ++ sayHelloMethod.goName.toList ++ "Server".toList)
                  ++ ") ".toList ++ "error".toList
              else "*".toList ++ sayHelloMethod.outputGoIdent.toList
                ++ ") ".toList ++ "error".toList))) :=
  ⟨by decide, signature_dispatch_shape_agree sayHelloMethod (by decide)⟩

/-- C2: for every service whose method names contain no parenthesis (as
any Go identifier), the key list of the Methods map emitted by
genServiceDef equals the method-name list read off the emitted client
interface signatures, and equals the one read off the emitted server
interface signatures; in particular the three name sets coincide. -/
theorem serviceDefn_keys_eq_iface_names (svc : Service)
    (h : ∀ m ∈ svc.methods, ('(' : Char) ∉ m.goName.toList) :
    (genServiceDef svc).map (fun e => e.key.toList)
        = (clientIfaceSignatures svc).map methodNameOfSig
      ∧ (genServiceDef svc).map (fun e => e.key.toList)
        = (serverIfaceSignatures svc).map methodNameOfSig := by
  constructor
  · unfold genServiceDef clientIfaceSignatures
    rw [List.map_map, List.map_map]
    exact List.map_congr_left fun m hm => (clientSignature_name m (h m hm)).symm
  · unfold genServiceDef serverIfaceSignatures
    rw [List.map_map, List.map_map]
    exact List.map_congr_left fun m hm => (serverSignature_name m (h m hm)).symm

/-- C2, witness at the concrete Greeter service. -/
theorem serviceDefn_keys_eq_iface_names_witness :
    (∀ m ∈ greeterService.methods, ('(' : Char) ∉ m.goName.toList)
      ∧ ((genServiceDef greeterService).map (fun e => e.key.toList)
          = (clientIfaceSignatures greeterService).map methodNameOfSig
        ∧ (genServiceDef greeterService).map (fun e => e.key.toList)
          = (serverIfaceSignatures greeterService).map methodNameOfSig) :=
  ⟨by decide, serviceDefn_keys_eq_iface_names greeterService (by decide)⟩

/-- C6: the IsStreaming field of every emitted MethodDefn entry equals
the method's server-streaming flag, and is unchanged by flipping the
client-streaming flag; the textual emission writes "true"/"false" from
that same flag (source line 308); and the unary SayHello method of the
Greeter scenario yields the single dispatch-map entry keyed "SayHello"
with IsStreaming false. -/
theorem isStreaming_iff_serverStreams :
    (∀ m : Method, (genServiceDefEntry m).isStreaming = m.isStreamingServer)
      ∧ (∀ (m : Method) (b : Bool),
          (genServiceDefEntry { m with isStreamingClient := b }).isStreaming
            = (genServiceDefEntry m).isStreaming)
      ∧ (genServiceDef greeterService).map (fun e => (e.key, e.isStreaming))
          = [("SayHello", false)] :=
  ⟨fun _ => rfl, fun _ _ => rfl, rfl⟩

/- ===================== Emission model ===================== -/

/-- One argument of a g.P call: either a plain string (all fmt-printable
arguments the generator passes, concatenated per call) or a
protogen.Comments value (rendered as comment lines by the external
GeneratedFile collaborator). -/
inductive Atom where
  | str (s : List Char)
  | comments (c : List Char)
deriving DecidableEq

/-- One g.P call: the list of its arguments.  The generated output is the
sequence of g.P calls; g.Annotate is a metadata side channel with no
bytes in the output text and is not modelled. -/
abbrev PCall := List Atom

/-- The deprecationComment constant (source line 403). -/
def deprecationComment : List Char := "// Deprecated: Do not use.".toList

/-- The g.P calls of the client-interface loop body for one method
(genService, source lines 119-125): the deprecation notice when the
method is deprecated, then the single call carrying the leading comments
and the client signature. -/
def clientIfaceMethodCalls (m : Method) : List PCall :=
  (if m.deprecated then [[Atom.str deprecationComment]] else [])
    ++ [[Atom.comments m.commentsLeading, Atom.str (clientSignature m)]]

/-- The g.P calls of the client interface declaration (genService, source
lines 110-127). -/
def genClientIfaceBlock (svc : Service) : List PCall :=
  [[Atom.str ("// ".toList ++ svc.goName.toList ++ "Client".toList
      ++ " is the client API for ".toList ++ svc.goName.toList ++ " service.".toList)]]
    ++ (if svc.deprecated then [[Atom.str "//".toList], [Atom.str deprecationComment]] else [])
    ++ [[Atom.str ("type ".toList ++ svc.goName.toList ++ "Client".toList
        ++ " interface \x7b".toList)]]
    ++ List.flatten (svc.methods.map clientIfaceMethodCalls)
    ++ [[Atom.str "\x7d".toList], []]

/-- The g.P calls of the server-interface loop body for one method
(genService, source lines 163-169). -/
def serverIfaceMethodCalls (m : Method) : List PCall :=
  (if m.deprecated then [[Atom.str deprecationComment]] else [])
    ++ [[Atom.comments m.commentsLeading, Atom.str (serverSignature m)]]

/-- The g.P calls of the server interface declaration (genService, source
lines 154-171). -/
def genServerIfaceBlock (svc : Service) : List PCall :=
  [[Atom.str ("// ".toList ++ svc.goName.toList ++ "Server".toList
      ++ " is the server API for ".toList ++ svc.goName.toList ++ " service.".toList)]]
    ++ (if svc.deprecated then [[Atom.str "//".toList], [Atom.str deprecationComment]] else [])
    ++ [[Atom.str ("type ".toList ++ svc.goName.toList ++ "Server".toList
        ++ " interface \x7b".toList)]]
    ++ List.flatten (svc.methods.map serverIfaceMethodCalls)
    ++ [[Atom.str "\x7d".toList], []]

theorem infix_flatten_part (A B : List PCall) (pieces : List (List PCall)) (chunk : List PCall)
    (hm : chunk ∈ pieces) : chunk <:+: A ++ pieces.flatten ++ B := by
  obtain ⟨s, t, hst⟩ := List.infix_of_mem_flatten hm
  exact ⟨A ++ s, t ++ B, by rw [← hst]; simp [List.append_assoc]⟩

/- ============ Concrete values for the C7 counterexample ============ -/

/-- A leading comment used by the deprecated-method counterexample. -/
def docCommentExample : List Char := "Does things.\n".toList

/-- A deprecated unary method with nonempty leading comments. -/
def deprecatedMethod : Method :=
  { goName := "DoIt", parentGoName := "Svc", inputGoIdent := "Req", outputGoIdent := "Resp",
    isStreamingClient := false, isStreamingServer := false, deprecated := true,
    commentsLeading := docCommentExample }

/-- A (non-deprecated) service holding the deprecated method. -/
def deprecatedMethodService : Service :=
  { goName := "Svc", deprecated := false, methods := [deprecatedMethod] }

/- ===================== Claim C7 ===================== -/

/-- C7, counterexample: for a deprecated method the generated client
interface does contain the deprecation notice line, but it is NOT
inserted immediately after the documentation block: the two consecutive
g.P calls doc-then-notice occur nowhere in the block, while
notice-then-doc does — the notice precedes the method's leading
comments. -/
theorem deprecation_notice_position_counterexample :
    ([Atom.str deprecationComment] ∈ genClientIfaceBlock deprecatedMethodService)
      ∧ ¬ ([[Atom.comments docCommentExample, Atom.str (clientSignature deprecatedMethod)],
            [Atom.str deprecationComment]]
          <:+: genClientIfaceBlock deprecatedMethodService)
      ∧ ([[Atom.str deprecationComment],
          [Atom.comments docCommentExample, Atom.str (clientSignature deprecatedMethod)]]
          <:+: genClientIfaceBlock deprecatedMethodService) := by
  refine ⟨by decide, by decide, by decide⟩

/-- C7, amended: every deprecated method's notice line is emitted, but it
is inserted immediately BEFORE the call carrying the method's leading
comments and signature, in both the client and the server interface; for
a deprecated service the notice does follow the service documentation
line (separated by an empty comment line), as the claim states. -/
theorem deprecation_notice_position (svc : Service) (m : Method)
    (hm : m ∈ svc.methods) (hd : m.deprecated = true) :
    ([[Atom.str deprecationComment],
        [Atom.comments m.commentsLeading, Atom.str (clientSignature m)]]
      <:+: genClientIfaceBlock svc)
    ∧ ([[Atom.str deprecationComment],
        [Atom.comments m.commentsLeading, Atom.str (serverSignature m)]]
      <:+: genServerIfaceBlock svc)
    ∧ (svc.deprecated = true →
        [[Atom.str ("// ".toList ++ svc.goName.toList ++ "Client".toList
            ++ " is the client API for ".toList ++ svc.goName.toList ++ " service.".toList)],
          [Atom.str "//".toList], [Atom.str deprecationComment]]
          <:+: genClientIfaceBlock svc) := by
  refine ⟨?_, ?_, ?_⟩
  · have hchunk : clientIfaceMethodCalls m
        = [[Atom.str deprecationComment],
           [Atom.comments m.commentsLeading, Atom.str (clientSignature m)]] := by
      simp [clientIfaceMethodCalls, hd]
    unfold genClientIfaceBlock
    rw [← hchunk]
    exact infix_flatten_part _ _ _ _ (List.mem_map_of_mem _ hm)
  · have hchunk : serverIfaceMethodCalls m
        = [[Atom.str deprecationComment],
           [Atom.comments m.commentsLeading, Atom.str (serverSignature m)]] := by
      simp [serverIfaceMethodCalls, hd]
    unfold genServerIfaceBlock
    rw [← hchunk]
    exact infix_flatten_part _ _ _ _ (List.mem_map_of_mem _ hm)
  · intro hsd
    refine ⟨[], [[Atom.str ("type ".toList ++ svc.goName.toList ++ "Client".toList
        ++ " interface \x7b".toList)]]
      ++ List.flatten (svc.methods.map clientIfaceMethodCalls)
      ++ [[Atom.str "\x7d".toList], []], ?_⟩
    simp [genClientIfaceBlock, hsd]

/-- C7, witness for the amended claim at the deprecated method DoIt. -/
theorem deprecation_notice_position_witness :
    (deprecatedMethod ∈ deprecatedMethodService.methods
        ∧ deprecatedMethod.deprecated = true)
      ∧ (([[Atom.str deprecationComment],
            [Atom.comments deprecatedMethod.commentsLeading,
              Atom.str (clientSignature deprecatedMethod)]]
          <:+: genClientIfaceBlock deprecatedMethodService)
        ∧ ([[Atom.str deprecationComment],
            [Atom.comments deprecatedMethod.commentsLeading,
              Atom.str (serverSignature deprecatedMethod)]]
          <:+: genServerIfaceBlock deprecatedMethodService)
        ∧ (deprecatedMethodService.deprecated = true →
            [[Atom.str ("// ".toList ++ deprecatedMethodService.goName.toList
                ++ "Client".toList ++ " is the client API for ".toList
                ++ deprecatedMethodService.goName.toList ++ " service.".toList)],
              [Atom.str "//".toList], [Atom.str deprecationComment]]
              <:+: genClientIfaceBlock deprecatedMethodService)) :=
  ⟨⟨by decide, rfl⟩,
    deprecation_notice_position deprecatedMethodService deprecatedMethod (by decide) rfl⟩

/- ===================== File-level model ===================== -/

/-- A source location's comments, as consumed by genLeadingComments
(source lines 289-298): the detached leading comments and the attached
leading comment. -/
structure SourceLoc where
  leadingDetached : List (List Char)
  leading : List Char
deriving DecidableEq

/-- A parsed schema file as the generator reads it: Go package name,
descriptor path (file.Desc.Path()), the file-level deprecated option,
the source locations of the syntax and package fields, and the declared
services and (top-level) messages. -/
structure File where
  goPackageName : String
  path : String
  deprecatedFile : Bool
  syntaxLoc : SourceLoc
  packageLoc : SourceLoc
  services : List Service
  messages : List Message
deriving DecidableEq

/-- genLeadingComments (source lines 289-298): each detached comment is
printed followed by an empty line; a nonempty attached leading comment is
printed followed by an empty line. -/
def genLeadingComments (loc : SourceLoc) : List PCall :=
  List.flatten (loc.leadingDetached.map (fun s => [[Atom.comments s], []]))
    ++ (if loc.leading.isEmpty then [] else [[Atom.comments loc.leading], []])

/-- genFieldHelps (source lines 386-401) as a structured table: one entry
per message declared in the file (file.Messages), keyed by the message
Go name, holding the sentinel "@" entry for the message's own comments
followed by one entry per field keyed by the proto field name, each
valued by the commentsToStr literal of the corresponding leading
comments. -/
def genFieldHelps (file : File) : List (String × List (String × List Char)) :=
  file.messages.map (fun msg =>
    (msg.goName,
      ("@", commentsToStr msg.commentsLeading)
        :: msg.fields.map (fun f => (f.name, commentsToStr f.commentsLeading))))

/-- The g.P calls genFieldHelps emits (source lines 386-401). -/
def genFieldHelpsCalls (file : File) : List PCall :=
  [[Atom.str "var help_messages = map[string]map[string]string\x7b".toList]]
    ++ List.flatten (file.messages.map (fun msg =>
        [[Atom.str ("\"".toList ++ msg.goName.toList ++ "\": \x7b".toList)],
         [Atom.str "\"@\":".toList],
         [Atom.str (commentsToStr msg.commentsLeading ++ ",".toList)]]
        ++ List.flatten (msg.fields.map (fun f =>
            [[Atom.str ("\"".toList ++ f.name.toList ++ "\": ".toList)],
             [Atom.str (commentsToStr f.commentsLeading ++ ",".toList)]]))
        ++ [[Atom.str "\x7d,".toList]]))
    ++ [[Atom.str "\x7d".toList], []]

/-- The g.P calls of the client_<Service> struct declaration (genService,
source lines 129-133). -/
def implStructCalls (svc : Service) : List PCall :=
  [[Atom.str ("type client_".toList ++ svc.goName.toList ++ " struct \x7b".toList)],
   [Atom.str "c ClientConn".toList],
   [Atom.str "defn ServiceDefn".toList],
   [Atom.str "\x7d".toList]]

/-- The g.P calls genClientMethod emits for one method (source lines
199-240): for a streaming method first the auxiliary stream-client
interface (Recv only when server-streaming; the Send / CloseAndRecv
directions are commented out in the source), then the method
implementation on the client struct, whose body calls ClientHandler
(unary) or ClientStreamHandler (streaming).  The index parameter of the
source is unused by the emission and not modelled. -/
def genClientMethodCalls (m : Method) : List PCall :=
  (if m.isStreamingServer || m.isStreamingClient then
      [[Atom.str ("type ".toList ++ m.parentGoName.toList ++ "_".toList
          ++ m.goName.toList ++ "Client interface \x7b".toList)]]
        ++ (if m.isStreamingServer then
              [[Atom.str ("Recv(*".toList ++ m.outputGoIdent.toList ++ ") error".toList)]]
            else [])
        ++ [[Atom.str "\x7d".toList], []]
    else [])
    ++ [[Atom.str ("func (c *client_".toList ++ m.parentGoName.toList ++ ") ".toList
        ++ clientSignature m ++ "\x7b".toList)]]
    ++ (if !(m.isStreamingServer || m.isStreamingClient) then
          [[Atom.str ("const method = \"".toList ++ m.goName.toList ++ "\"".toList)],
           [Atom.str "return c.defn.Methods[method].ClientHandler(c.c, ctx, in, out)".toList]]
        else
          [[Atom.str ("const method = \"".toList ++ m.goName.toList ++ "\"".toList)],
           [Atom.str "inner, err := c.defn.Methods[method].ClientStreamHandler(c.c, ctx, in)".toList],
           [Atom.str "if err != nil \x7b return nil, err \x7d ".toList],
           [Atom.str ("return streamerImpl[*".toList ++ m.outputGoIdent.toList
              ++ "]\x7bc: inner\x7d, nil".toList)]])
    ++ [[Atom.str "\x7d".toList], []]

/-- The g.P calls of the New<Service>Client constructor (genService,
source lines 149-152). -/
def newClientCalls (svc : Service) : List PCall :=
  [[Atom.str ("func New".toList ++ svc.goName.toList ++ "Client".toList
      ++ "(c ClientConn)".toList ++ svc.goName.toList ++ "Client".toList ++ "\x7b".toList)],
   [Atom.str ("return &client_".toList ++ svc.goName.toList ++ "\x7bc: c, defn: ".toList
      ++ svc.goName.toList ++ "Defn()\x7d".toList)],
   [Atom.str "\x7d".toList], []]

/-- The g.P calls genServerMethod emits for one method (source lines
257-287): nothing for a unary method; for a streaming method the
auxiliary stream-server interface (Send only when server-streaming; the
SendAndClose / Recv directions are commented out in the source). -/
def genServerMethodCalls (m : Method) : List PCall :=
  if !m.isStreamingClient && !m.isStreamingServer then []
  else
    [[Atom.str ("type ".toList ++ m.parentGoName.toList ++ "_".toList
        ++ m.goName.toList ++ "Server".toList ++ " interface \x7b".toList)]]
      ++ (if m.isStreamingServer then
            [[Atom.str ("Send(m *".toList ++ m.outputGoIdent.toList ++ ") error ".toList)]]
          else [])
      ++ [[Atom.str "\x7d".toList], []]

/-- The g.P calls of one MethodDefn literal inside genServiceDef (source
lines 305-335).  The qualified identifiers ctxIdent, protoMsgIdent and
protoDescriptorIdent render as context.Context, proto.Message and
protoreflect.MessageDescriptor. -/
def genServiceDefMethodCalls (svc : Service) (m : Method) : List PCall :=
  [[Atom.str ("\"".toList ++ m.goName.toList ++ "\": \x7b".toList)],
   [Atom.str ("IsStreaming: ".toList
      ++ (if m.isStreamingServer then "true".toList else "false".toList) ++ ",".toList)],
   [Atom.str ("NewRequest: func() proto.Message \x7b return new(".toList
      ++ m.inputGoIdent.toList ++ ")\x7d,".toList)],
   [Atom.str ("NewResponse: func() proto.Message \x7b return new(".toList
      ++ m.outputGoIdent.toList ++ ")\x7d,".toList)],
   [Atom.str ("RequestDefn: func() protoreflect.MessageDescriptor \x7b return new(".toList
      ++ m.inputGoIdent.toList ++ ").ProtoReflect().Descriptor()\x7d,".toList)],
   [Atom.str ("ResponseDefn: func() protoreflect.MessageDescriptor \x7b return new(".toList
      ++ m.outputGoIdent.toList ++ ").ProtoReflect().Descriptor()\x7d,".toList)],
   [Atom.str ("Help: ".toList ++ commentsToStr m.commentsLeading ++ ",".toList)]]
    ++ (if !m.isStreamingServer then
          [[Atom.str ("ServerHandler: func(x interface\x7b\x7d, ctx context.Context, request, response proto.Message) error \x7b".toList)],
           [Atom.str ("return x.(".toList ++ m.parentGoName.toList ++ "Server".toList
              ++ ").".toList ++ m.goName.toList ++ "(ctx, request.(*".toList
              ++ m.inputGoIdent.toList ++ "), response.(*".toList
              ++ m.outputGoIdent.toList ++ "))".toList)],
           [Atom.str "\x7d,".toList],
           [Atom.str ("ClientHandler: func(conn ClientConn, ctx context.Context, request, response proto.Message) error \x7b".toList)],
           [Atom.str ("method := \"".toList ++ svc.goName.toList ++ ".".toList
              ++ m.goName.toList ++ "\"".toList)],
           [Atom.str "return conn.Request(ctx, method, request, response)".toList],
           [Atom.str "\x7d,".toList]]
        else
          [[Atom.str ("ServerStreamHandler: func(x interface\x7b\x7d, ctx context.Context, request proto.Message, stream ServerStream) error \x7b".toList)],
           [Atom.str ("return x.(".toList ++ m.parentGoName.toList ++ "Server".toList
              ++ ").".toList ++ m.goName.toList ++ "(ctx, request.(*".toList
              ++ m.inputGoIdent.toList ++ "), streamerImpl[*".toList
              ++ m.outputGoIdent.toList ++ "]\x7bs: stream\x7d)".toList)],
           [Atom.str "\x7d,".toList],
           [Atom.str ("ClientStreamHandler: func(conn ClientConn, ctx context.Context, request proto.Message) (ClientStream, error) \x7b".toList)],
           [Atom.str ("method := \"".toList ++ svc.goName.toList ++ ".".toList
              ++ m.goName.toList ++ "\"".toList)],
           [Atom.str "return conn.Stream(ctx, method, request)".toList],
           [Atom.str "\x7d,".toList]])
    ++ [[Atom.str "\x7d,".toList]]

/-- The g.P calls of genServiceDef (source lines 300-340). -/
def genServiceDefCalls (svc : Service) : List PCall :=
  [[Atom.str ("func ".toList ++ svc.goName.toList ++ "Defn() ServiceDefn \x7b ".toList)],
   [Atom.str "return ServiceDefn \x7b".toList],
   [Atom.str ("Name: \"".toList ++ svc.goName.toList ++ "\",".toList)],
   [Atom.str "Methods: map[string]MethodDefn\x7b".toList]]
    ++ List.flatten (svc.methods.map (genServiceDefMethodCalls svc))
    ++ [[Atom.str "\x7d,".toList], [Atom.str "\x7d".toList], [Atom.str "\x7d".toList], []]

/-- genService (source lines 107-179): the full per-service emission, in
source order: client interface, client struct, client method
implementations, constructor, server interface, server stream-auxiliary
interfaces (via helper.generateServerFunctions and genServerMethod), and
the ServiceDefn factory. -/
def genService (svc : Service) : List PCall :=
  genClientIfaceBlock svc
    ++ implStructCalls svc
    ++ List.flatten (svc.methods.map genClientMethodCalls)
    ++ newClientCalls svc
    ++ genServerIfaceBlock svc
    ++ List.flatten (svc.methods.map genServerMethodCalls)
    ++ genServiceDefCalls svc

/-- generateFileContent (source lines 94-105): all services in
declaration order, then the help table. -/
def generateFileContent (file : File) : List PCall :=
  if file.services.length = 0 then []
  else List.flatten (file.services.map genService) ++ genFieldHelpsCalls file

/-- generateFile (source lines 70-91): returns none (Go nil) and emits
nothing when the file declares no services; otherwise the header
comments, the generated-code marker, the source-path or deprecated-file
line, the package clause and the file content. -/
def generateFile (file : File) : Option (List PCall) :=
  if file.services.length = 0 then none
  else some (
    genLeadingComments file.syntaxLoc
      ++ [[Atom.str "// Code generated by protoc-gen-go-svcintf. DO NOT EDIT.".toList]]
      ++ (if file.deprecatedFile then
            [[Atom.str ("// ".toList ++ file.path.toList ++ " is a deprecated file.".toList)]]
          else
            [[Atom.str ("// source: ".toList ++ file.path.toList)]])
      ++ [[]]
      ++ genLeadingComments file.packageLoc
      ++ [[Atom.str ("package ".toList ++ file.goPackageName.toList)]]
      ++ [[]]
      ++ generateFileContent file)

/- ============ Concrete files for witnesses ============ -/

/-- The HelloRequest message with one commented field, as in the
specification's normalization scenario. -/
def helloRequestMsg : Message :=
  { goName := "HelloRequest",
    commentsLeading := "The request.\n".toList,
    fields := [{ name := "name",
                 commentsLeading := "Name of the user.\nMust be non-empty.\n".toList }] }

/-- A schema file holding the Greeter service and the HelloRequest
message. -/
def greeterFile : File :=
  { goPackageName := "greetpkg", path := "greet.proto", deprecatedFile := false,
    syntaxLoc := { leadingDetached := [], leading := [] },
    packageLoc := { leadingDetached := [], leading := [] },
    services := [greeterService], messages := [helloRequestMsg] }

/-- A schema file that declares messages but no services. -/
def servicelessFile : File :=
  { goPackageName := "greetpkg", path := "types.proto", deprecatedFile := false,
    syntaxLoc := { leadingDetached := [], leading := [] },
    packageLoc := { leadingDetached := [], leading := [] },
    services := [], messages := [helloRequestMsg] }

/- ===================== Claims C8, C9, C10 ===================== -/

/-- C8: the generated help table has exactly one entry per message
declared in the schema file, keyed by the message name (independent of
the message's use as an RPC request or response type), and each
message's nested map carries the sentinel "@" entry for the message
itself plus one entry per field keyed by field name, each mapped to the
normalized help text of the corresponding comments. -/
theorem helpTable_covers_messages (file : File) (msg : Message)
    (hm : msg ∈ file.messages) :
    ((genFieldHelps file).map Prod.fst = file.messages.map Message.goName)
      ∧ ∃ entry ∈ genFieldHelps file,
          entry.1 = msg.goName
            ∧ entry.2.map Prod.fst = "@" :: msg.fields.map MsgField.name
            ∧ ("@", commentsToStr msg.commentsLeading) ∈ entry.2
            ∧ ∀ f ∈ msg.fields, (f.name, commentsToStr f.commentsLeading) ∈ entry.2 := by
  constructor
  · simp [genFieldHelps]
  · refine ⟨(msg.goName,
        ("@", commentsToStr msg.commentsLeading)
          :: msg.fields.map (fun f => (f.name, commentsToStr f.commentsLeading))),
      List.mem_map_of_mem _ hm, rfl, by simp, List.mem_cons_self _ _, ?_⟩
    intro f hf
    exact List.mem_cons_of_mem _ (List.mem_map_of_mem _ hf)

/-- C8, witness at the concrete file holding HelloRequest. -/
theorem helpTable_covers_messages_witness :
    (helloRequestMsg ∈ greeterFile.messages)
      ∧ (((genFieldHelps greeterFile).map Prod.fst = greeterFile.messages.map Message.goName)
        ∧ ∃ entry ∈ genFieldHelps greeterFile,
            entry.1 = helloRequestMsg.goName
              ∧ entry.2.map Prod.fst = "@" :: helloRequestMsg.fields.map MsgField.name
              ∧ ("@", commentsToStr helloRequestMsg.commentsLeading) ∈ entry.2
              ∧ ∀ f ∈ helloRequestMsg.fields,
                  (f.name, commentsToStr f.commentsLeading) ∈ entry.2) :=
  ⟨by decide, helpTable_covers_messages greeterFile helloRequestMsg (by decide)⟩

/-- C9: generation is deterministic.  The embedding of generateFile is a
total function of the descriptor input alone — the source iterates only
over slices (file.Services, service.Methods, file.Messages, msg.Fields,
regexp match lists), never over a Go map, and consults no clock,
randomness or global state — so two runs on identical descriptor trees
produce identical call streams, hence byte-identical output text. -/
theorem generation_deterministic (f1 f2 : File) (h : f1 = f2) :
    generateFile f1 = generateFile f2 := by
  rw [h]

/-- C9, witness: two runs on the concrete Greeter file coincide. -/
theorem generation_deterministic_witness :
    greeterFile = greeterFile ∧ generateFile greeterFile = generateFile greeterFile :=
  ⟨rfl, generation_deterministic greeterFile greeterFile rfl⟩

/-- C10: a schema file declaring zero services produces no generated file
at all — generateFile returns none before any header, package clause or
help table is emitted — even when the file declares messages. -/
theorem generateFile_skips_serviceless (file : File) (h : file.services = []) :
    generateFile file = none := by
  simp [generateFile, h]

/-- C10, witness: the concrete serviceless file declares a message and
still produces no output. -/
theorem generateFile_skips_serviceless_witness :
    servicelessFile.services = [] ∧ servicelessFile.messages ≠ []
      ∧ generateFile servicelessFile = none :=
  ⟨rfl, by decide, generateFile_skips_serviceless servicelessFile rfl⟩
